import Mathlib

/-!
Verification of the WOLFAI monitoring subsystem: a shallow embedding of
`src/ml/scripts/evaluate_models.py`, `src/ml/scripts/check_model_performance.py`
and `src/monitoring/analyze_costs.py`, together with theorems settling the
spec claims about metric computation, threshold evaluation, anomaly
detection, alert formatting and metric exposition.

Modelling conventions:
* Python/numpy floating-point scalars are modelled as `PyFloat`: exact
  rationals plus the special values `nan`, `inf`, `-inf`.  Arithmetic on the
  special values follows IEEE semantics as produced by numpy/pandas
  (`0/0 = nan`, `x/0 = ±inf`, comparisons with `nan` are `False`).
  Decimal literals such as `0.1` are taken at their exact rational value.
* Remote prediction calls are external I/O; they are modelled by their
  per-row outcomes (`some prediction` for a successful call, `none` for a
  `RemoteCallError`), exactly the shape `get_predictions` accumulates.
* A Python expression that raises is modelled with `Except String`.
-/

namespace WolfAI

/-- numpy/pandas scalar: an exact rational or one of the IEEE special
values `nan`, `inf`, `-inf`. -/
inductive PyFloat where
  | val (q : ℚ)
  | nan
  | inf
  | ninf
deriving DecidableEq, Repr

namespace PyFloat

/-- `x > y` with IEEE comparison semantics: every comparison involving
`nan` is `False`; `inf` is above and `-inf` below every rational. -/
def gtB : PyFloat → PyFloat → Bool
  | val a, val b => decide (b < a)
  | val _, ninf => true
  | val _, _ => false
  | nan, _ => false
  | inf, val _ => true
  | inf, ninf => true
  | inf, _ => false
  | ninf, _ => false

/-- `x < y`, IEEE semantics. -/
def ltB (x y : PyFloat) : Bool := gtB y x

/-- numpy float division `a / b` of exact rationals:
`0/0 = nan`, `a/0 = ±inf` for `a ≠ 0`. -/
def qdiv (a b : ℚ) : PyFloat :=
  if b = 0 then
    (if a = 0 then nan else if 0 < a then inf else ninf)
  else val (a / b)

/-- `1 - x` on floats (used by the `r2` computation). -/
def oneSub : PyFloat → PyFloat
  | val q => val (1 - q)
  | nan => nan
  | inf => ninf
  | ninf => inf

/-- The rational value of a `val`; junk value `0` on the special floats
(only ever used where the argument is known to be a `val`). -/
def toQ : PyFloat → ℚ
  | val q => q
  | _ => 0

end PyFloat

/-! ## Metrics exporter of `evaluate_models.py` (`export_metrics`, lines 202-216)

`self.results` maps each model id to a dict whose values are Python floats
(possibly `nan`) together with the string `evaluated_at`; the exporter keeps
exactly the values passing `isinstance(value, (int, float))`. -/

/-- A value stored in a results dict: a Python int/float (ints are exact
rationals) or a string such as the `evaluated_at` timestamp. -/
inductive PyVal where
  | fl (f : PyFloat)
  | str (s : String)
deriving DecidableEq, Repr

/-- One Prometheus exposition line `name{label="v",...} value`, kept
structured: name, ordered labels, and the numeric value. -/
structure Line where
  name : String
  labels : List (String × String)
  value : PyFloat
deriving DecidableEq, Repr

/-- `metric_name = f"model_{metric}"; metric_name = metric_name.replace('-', '_')`
(lines 209-210).  A single-character `str.replace` is exactly a character map. -/
def sanitizeName (metric : String) : String :=
  String.mk (("model_" ++ metric).data.map (fun c => if c = '-' then '_' else c))

/-- `export_metrics` of `evaluate_models.py`: one line per numeric value of
each model's results dict, with the single verbatim label `model_id`.
Non-numeric (string) values fail the `isinstance` check and are skipped. -/
def exportMetrics (results : List (String × List (String × PyVal))) : List Line :=
  results.flatMap (fun r =>
    r.2.filterMap (fun kv =>
      match kv.2 with
      | .fl f => some ⟨sanitizeName kv.1, [("model_id", r.1)], f⟩
      | .str _ => none))

/-! ## Anomaly detector of `analyze_costs.py` (`analyze_anomalies`, lines 72-85)

The detector receives the daily aggregated cost series (the result of the
preceding `groupby('date')['cost'].sum()`), computes
`z = (cost - mean) / std` with pandas' default sample standard deviation
(`ddof = 1`), and keeps the rows with `|z| > 2`; it returns `None` when the
selection is empty.  To stay in exact arithmetic the flag condition
`|v - mean| / sqrt(S / (n-1)) > 2` is expressed in the equivalent squared
form `(v - mean)^2 * (n-1) > 4 * S` (the equivalence against the literal
real-valued z-score is proved in `anomaly_zscore_sample_std` below); the pandas
corner cases agree: `std = 0` or `n ≤ 1` yields `nan` z-scores, which pass
no `> 2` test, and indeed the squared form is false there. -/

/-- Mean of a rational series (`daily_costs['cost'].mean()`). -/
def meanQ (l : List ℚ) : ℚ := l.sum / l.length

/-- Sum of squared deviations from the mean, `S = Σ (v - mean)²`
(the numerator of the pandas variance). -/
def devSqSum (l : List ℚ) : ℚ := (l.map (fun v => (v - meanQ l) ^ 2)).sum

/-- `|z| > 2` for one point, where `z = (v - mean) / std` and
`std = sqrt(S / (n-1))` (pandas `ddof = 1`), in squared rational form. -/
def anomFlag (l : List ℚ) (v : ℚ) : Bool :=
  decide (4 * devSqSum l < (v - meanQ l) ^ 2 * ((l.length : ℚ) - 1))

/-- `analyze_anomalies`: the sub-series of points flagged by `anomFlag`;
`None` when no point is flagged (`anomalies if not anomalies.empty else None`). -/
def analyzeAnomalies (costs : List ℚ) : Option (List ℚ) :=
  if (costs.filter (fun v => anomFlag costs v)).isEmpty then none
  else some (costs.filter (fun v => anomFlag costs v))

/-! ## Threshold rule evaluator of `check_model_performance.py`
(`check_performance`, lines 37-82)

The rule table is the `self.thresholds` dict of `__init__`; the direction of
a rule is encoded in the source by the special case `if metric == 'rmse'`
(higher-is-bad) versus the default branch (lower-is-bad). -/

/-- Rule direction as named by the spec; derived from the source's
`if metric == 'rmse'` special case. -/
inductive Direction where
  | higherIsBetter
  | lowerIsBetter
deriving DecidableEq, Repr

/-- The direction the checker applies to a metric: `rmse` is
lower-is-better, every other metric is higher-is-better. -/
def direction (metric : String) : Direction :=
  if metric = "rmse" then .lowerIsBetter else .higherIsBetter

/-- Violation status strings `'high'` / `'low'` of the source (rendered as
"Too high" / "Too low" in the alert message; the spec names them
`too_high` / `too_low`). -/
inductive VStatus where
  | high
  | low
deriving DecidableEq, Repr

/-- One entry of a `model_alerts` list (lines 51-64). -/
structure Violation where
  metric : String
  value : PyFloat
  threshold : ℚ
  status : VStatus
deriving DecidableEq, Repr

/-- The per-rule decision of `check_performance` (lines 49-64):
`rmse` fires on `value > threshold` with status `high`; any other metric
fires on `value < threshold` with status `low`.  A `nan` value compares
`False` both ways and never fires. -/
def checkRule (metric : String) (threshold : ℚ) (value : PyFloat) : Option Violation :=
  if metric = "rmse" then
    if PyFloat.gtB value (.val threshold) then some ⟨metric, value, threshold, .high⟩ else none
  else
    if PyFloat.ltB value (.val threshold) then some ⟨metric, value, threshold, .low⟩ else none

/-- Dict lookup `metrics[metric]` / the `metric not in metrics` test. -/
def lookupMetric (m : List (String × PyFloat)) (k : String) : Option PyFloat :=
  (m.find? (fun kv => kv.1 = k)).map (fun kv => kv.2)

/-- One iteration of the rule loop: skip when the metric is absent
(`continue`), otherwise apply the rule to the sample value. -/
def checkStep (m : List (String × PyFloat)) (r : String × ℚ) : Option Violation :=
  match lookupMetric m r.1 with
  | none => none
  | some v => checkRule r.1 r.2 v

/-- The `model_alerts` accumulation: iterate the rules in declaration
order, skip rules whose metric is absent, and collect the violations of
the rules that fire. -/
def checkModel (rules : List (String × ℚ)) (m : List (String × PyFloat)) : List Violation :=
  rules.filterMap (checkStep m)

/-- The configured rule table `self.thresholds` (lines 19-26), in
declaration order. -/
def thresholds : List (String × ℚ) :=
  [("directional_accuracy", 4/5), ("interval_accuracy", 3/4), ("rmse", 1/50),
   ("profit_correlation", 3/5), ("r2", 7/10), ("avg_confidence", 7/10)]

/-- One loaded results entry: the metrics dict (float values) together
with its `evaluated_at` timestamp entry. -/
structure Sample where
  metrics : List (String × PyFloat)
  evaluated_at : Option String
deriving DecidableEq, Repr

/-- One entry of the `alerts` list built by `check_performance`. -/
structure Alert where
  model_id : String
  alerts : List Violation
  evaluation_time : Option String
deriving DecidableEq, Repr

/-- One entry of the `summary` list built by `check_performance`
(lines 73-80), with the source's `metrics.get` defaults: `0` for the
accuracy and correlation columns, `float('inf')` for `rmse`. -/
structure SummaryRow where
  model_id : String
  directional_accuracy : PyFloat
  interval_accuracy : PyFloat
  rmse : PyFloat
  profit_correlation : PyFloat
  alerts : ℕ
deriving DecidableEq, Repr

/-- `metrics.get(k, default)`. -/
def getDefault (m : List (String × PyFloat)) (k : String) (d : PyFloat) : PyFloat :=
  (lookupMetric m k).getD d

/-- The summary row appended for one model (lines 73-80). -/
def summaryRow (mid : String) (m : List (String × PyFloat)) (nAlerts : ℕ) : SummaryRow :=
  ⟨mid, getDefault m "directional_accuracy" (.val 0),
    getDefault m "interval_accuracy" (.val 0),
    getDefault m "rmse" .inf,
    getDefault m "profit_correlation" (.val 0), nAlerts⟩

/-- `check_performance` (lines 37-82): per model, the violations of the
configured rules; an alert entry only when at least one rule fired
(`if model_alerts:`); a summary row for every model. -/
def checkPerformance (results : List (String × Sample)) : List Alert × List SummaryRow :=
  match results with
  | [] => ([], [])
  | (mid, s) :: rest =>
    (if checkModel thresholds s.metrics = [] then (checkPerformance rest).1
     else ⟨mid, checkModel thresholds s.metrics, s.evaluated_at⟩ :: (checkPerformance rest).1,
     summaryRow mid s.metrics (checkModel thresholds s.metrics).length :: (checkPerformance rest).2)

/-! ## Metric computation engine of `evaluate_models.py`

`get_predictions` (lines 44-80) performs one remote call per dataset row;
the call outcomes are external and are modelled as a list with one entry
per row: `some p` for a successful prediction, `none` for a failed call
(the source appends `None` to `predictions` and increments `errors`).
`evaluate_model` (lines 115-153) turns the outcomes into the metric dict;
subscripting a `None` entry (`p['predicted_high']`) raises `TypeError`,
modelled with `Except String`.

The dict fields `rmse = sqrt(mse)` and the two `np.corrcoef`-based
correlations are square-root-valued and hence not representable as exact
rationals; no claim inspects their value, and the `rmse = 0` part of the
perfect-prediction claim is stated through `Real.sqrt` on the `mse` field
directly in the corresponding theorem. -/

/-- One successful prediction payload `{predicted_high, predicted_low,
confidence}`. -/
structure Pred where
  predicted_high : ℚ
  predicted_low : ℚ
  confidence : ℚ
deriving DecidableEq, Repr

/-- The `errors` counter of `get_predictions`: one per failed call. -/
def countFailures (outcomes : List (Option Pred)) : ℕ := outcomes.count none

/-- `get_predictions` (lines 44-80): returns the per-row predictions list
(with `None` placeholders at the failed rows) unless
`errors > len(data) * 0.1`, in which case the entity is abandoned and
`None` is returned.  The Python literal `0.1` is taken at its exact
rational value `1/10`. -/
def getPredictions (outcomes : List (Option Pred)) : Option (List (Option Pred)) :=
  if ((countFailures outcomes : ℚ) > (outcomes.length : ℚ) * (1/10)) then none
  else some outcomes

/-- A list comprehension `[f(p) for p in predictions]` over entries that
may be `None`: subscripting `None` raises `TypeError`. -/
def extractAll {α : Type} (f : Pred → α) : List (Option Pred) → Except String (List α)
  | [] => .ok []
  | none :: _ => .error "TypeError: 'NoneType' object is not subscriptable"
  | some p :: rest => (extractAll f rest).map (fun l => f p :: l)

/-- Σ (a - b)² over paired series. -/
def sqErrSum (ys yps : List ℚ) : ℚ := (List.zipWith (fun a b => (a - b) ^ 2) ys yps).sum

/-- Σ |a - b| over paired series. -/
def absErrSum (ys yps : List ℚ) : ℚ := (List.zipWith (fun a b => |a - b|) ys yps).sum

/-- `np.mean` of a rational series: `nan` on the empty series. -/
def npMean (l : List ℚ) : PyFloat := PyFloat.qdiv l.sum l.length

/-- `np.mean` of a boolean series (numpy treats `True` as `1.0`). -/
def npMeanB (bs : List Bool) : PyFloat := PyFloat.qdiv (bs.count true : ℚ) bs.length

/-- `mean_squared_error(y_true, y_pred)` = Σ (y - ŷ)² / n. -/
def mseV (ys yps : List ℚ) : PyFloat := PyFloat.qdiv (sqErrSum ys yps) ys.length

/-- `mean_absolute_error(y_true, y_pred)` = Σ |y - ŷ| / n. -/
def maeV (ys yps : List ℚ) : PyFloat := PyFloat.qdiv (absErrSum ys yps) ys.length

/-- Σ (y - ȳ)², the denominator of the `r2` formula (lines 103-106). -/
def totSqSum (ys : List ℚ) : ℚ := (ys.map (fun y => (y - meanQ ys) ^ 2)).sum

/-- `r2 = 1 - Σ(y - ŷ)² / Σ(y - ȳ)²` with numpy float division:
a zero denominator gives `nan` (numerator zero) or `±inf`. -/
def r2V (ys yps : List ℚ) : PyFloat :=
  PyFloat.oneSub (PyFloat.qdiv (sqErrSum ys yps) (totSqSum ys))

/-- `np.diff`: consecutive differences `l[i+1] - l[i]`. -/
def diffs (l : List ℚ) : List ℚ := List.zipWith (fun a b => b - a) l l.tail

/-- `directional_accuracy = np.mean(np.diff(y_true) > 0 == np.diff(y_pred) > 0)`
(lines 128-133). -/
def dirAccV (ys yps : List ℚ) : PyFloat :=
  npMeanB (List.zipWith (fun a b => a == b)
    ((diffs ys).map (fun d => decide (0 < d)))
    ((diffs yps).map (fun d => decide (0 < d))))

/-- `interval_accuracy = np.mean(logical_and(y_true >= lows, y_true <= highs))`
(lines 135-140). -/
def intervalAccV (ys lows highs : List ℚ) : PyFloat :=
  npMeanB (List.zipWith3 (fun y lo hi => decide (lo ≤ y) && decide (y ≤ hi)) ys lows highs)

/-- The claim-relevant fields of the metric dict built by
`evaluate_regression_model` / `evaluate_model`.  `rmse` (= `sqrt mse`) and
the correlation fields are irrational-valued and treated at theorem level;
`evaluated_at` is the run timestamp, excluded everywhere by the spec. -/
structure Metrics where
  mse : PyFloat
  mae : PyFloat
  r2 : PyFloat
  avg_confidence : PyFloat
  directional_accuracy : PyFloat
  interval_accuracy : PyFloat
deriving DecidableEq, Repr

/-- `evaluate_model` (lines 115-153): abandoned entity (`get_predictions`
returned `None`) gives `ok none`; otherwise the comprehensions over the
predictions list run — raising `TypeError` if any entry is `None` — and
the metric dict is built from `y_true`, `y_pred = predicted_high`,
`lows = predicted_low` and `confidence`. -/
def evaluateModel (yTrue : List ℚ) (outcomes : List (Option Pred)) :
    Except String (Option Metrics) :=
  match getPredictions outcomes with
  | none => .ok none
  | some preds => do
    let yPred ← extractAll Pred.predicted_high preds
    let conf ← extractAll Pred.confidence preds
    let lows ← extractAll Pred.predicted_low preds
    .ok (some
      { mse := mseV yTrue yPred
        mae := maeV yTrue yPred
        r2 := r2V yTrue yPred
        avg_confidence := npMean conf
        directional_accuracy := dirAccV yTrue yPred
        interval_accuracy := intervalAccV yTrue lows yPred })

/-- The `evaluate_all_models` loop (lines 172-181): models are processed
in order; an abandoned entity (`metrics is None`) is skipped and the loop
continues; an uncaught exception from `evaluate_model` aborts the whole
run (there is no try/except around the call). -/
def runAll (yTrue : List ℚ) :
    List (String × List (Option Pred)) → Except String (List (String × Metrics))
  | [] => .ok []
  | (mid, oc) :: rest =>
    match evaluateModel yTrue oc with
    | .error e => .error e
    | .ok none => runAll yTrue rest
    | .ok (some m) => (runAll yTrue rest).map (fun l => (mid, m) :: l)

/-! ## Alert dispatcher formatting of `check_model_performance.py`
(`format_alert_message`, lines 84-157, and `export_metrics`, lines 174-198)

`summary_df.nlargest(3, 'directional_accuracy')` is pandas' stable
selection (`keep='first'`): the rows sorted descending by the column with
ties kept in original row order, truncated to 3.  It is modelled by a
stable insertion sort (earlier rows are inserted first; an incoming row
passes an already-placed row only when strictly greater, so equal keys
keep input order).

Number-to-text renderings (`:.2%`, `:.4f`, plain `str(float)`) are decimal
formattings of binary doubles; they are modelled as deterministic
renderings of the exact rational value (half-up rounding).  The tie
behaviour of Python's round-half-even on doubles is not exercised by any
claim. -/

/-- The ranking key: the `directional_accuracy` column. -/
def rowKey (r : SummaryRow) : PyFloat := r.directional_accuracy

/-- Insert a row into a descending-sorted list: walk past every row that
the new row is not strictly greater than (so equal keys keep first-come
order, pandas `keep='first'`). -/
def insertRow (x : SummaryRow) : List SummaryRow → List SummaryRow
  | [] => [x]
  | y :: ys => if PyFloat.gtB (rowKey x) (rowKey y) then x :: y :: ys else y :: insertRow x ys

/-- Stable descending sort by `directional_accuracy` (rows inserted in
input order). -/
def sortRows (rows : List SummaryRow) : List SummaryRow :=
  rows.foldl (fun acc x => insertRow x acc) []

/-- `summary_df.nlargest(3, 'directional_accuracy')` (line 115). -/
def topModels (summary : List SummaryRow) : List SummaryRow :=
  (sortRows summary).take 3

/-- Round `q` to `decs` decimal places and render with a fixed number of
fraction digits (model of Python's fixed-point formatting). -/
def fmtF (decs : ℕ) (q : ℚ) : String :=
  let scaled : ℤ := round (q * ((10 : ℚ) ^ decs))
  let sign := if scaled < 0 then "-" else ""
  let n := scaled.natAbs
  let ip := n / 10 ^ decs
  let fp := n % 10 ^ decs
  let fpStr := toString fp
  if decs = 0 then sign ++ toString ip
  else sign ++ toString ip ++ "." ++
    String.mk (List.replicate (decs - fpStr.length) '0') ++ fpStr

/-- Python `f"{x:.<decs>f}"` on a float. -/
def fmtFloat (decs : ℕ) : PyFloat → String
  | .val q => fmtF decs q
  | .nan => "nan"
  | .inf => "inf"
  | .ninf => "-inf"

/-- Python `f"{x:.2%}"` on a float. -/
def fmtPct : PyFloat → String
  | .val q => fmtF 2 (100 * q) ++ "%"
  | .nan => "nan%"
  | .inf => "inf%"
  | .ninf => "-inf%"

/-- Plain `str(x)` of a numeric value in an exposition line.  The textual
value is a deterministic function of the exact value; the precise decimal
repr of a binary double is not modelled. -/
def pyShow : PyFloat → String
  | .val q => toString q
  | .nan => "nan"
  | .inf => "inf"
  | .ninf => "-inf"

/-- pandas `Series.mean()` (skipna): `nan` entries are dropped; an `inf`
entry drives the mean to `inf` (both signs together give `nan`); the mean
of no surviving entries is `nan`. -/
def pdMean (l : List PyFloat) : PyFloat :=
  let vals := l.filterMap (fun f => match f with | .val q => some q | _ => none)
  if l.contains .inf then (if l.contains .ninf then .nan else .inf)
  else if l.contains .ninf then .ninf
  else if vals.isEmpty then .nan
  else .val (vals.sum / vals.length)

/-- Minimum of two non-`nan` floats. -/
def pyMin2 : PyFloat → PyFloat → PyFloat
  | .ninf, _ => .ninf
  | x, .ninf => x
  | .inf, y => y
  | x, .inf => x
  | .val a, .val b => .val (min a b)
  | x, _ => x

/-- pandas `Series.min()` (skipna): minimum over the non-`nan` entries,
`nan` when none survive. -/
def pdMin (l : List PyFloat) : PyFloat :=
  let vals := l.filter (fun f => f ≠ .nan)
  match vals with
  | [] => .nan
  | x :: xs => xs.foldl pyMin2 x

/-- A Slack message block: a header or a markdown section (the source's
`{"type": "header"|"section", ...}` dicts). -/
inductive Block where
  | header (text : String)
  | sect (text : String)
deriving DecidableEq, Repr

/-- "Too high" / "Too low" rendering of a violation status (line 100). -/
def statusText : VStatus → String
  | .high => "❌ Too high"
  | .low => "❌ Too low"

/-- One violation line of the alert section (lines 101-104). -/
def violLine (i : Violation) : String :=
  "• " ++ i.metric ++ ": " ++ fmtPct i.value ++ " (" ++ statusText i.status ++
    ", threshold: " ++ fmtPct (.val i.threshold) ++ ")\n"

/-- The alert section text (lines 96-104). -/
def alertSectionText (alerts : List Alert) : String :=
  "*Performance Alerts:*\n" ++ String.join (alerts.map (fun a =>
    "\n*Model " ++ a.model_id ++ "*\n" ++ String.join (a.alerts.map violLine)))

/-- One row of the top-models section (lines 118-125). -/
def topRowText (r : SummaryRow) : String :=
  "\n*Model " ++ r.model_id ++ "*\n" ++
  "• Directional Accuracy: " ++ fmtPct r.directional_accuracy ++ "\n" ++
  "• Interval Accuracy: " ++ fmtPct r.interval_accuracy ++ "\n" ++
  "• RMSE: " ++ fmtFloat 4 r.rmse ++ "\n" ++
  "• Profit Correlation: " ++ fmtFloat 2 r.profit_correlation ++ "\n"

/-- The overall-statistics section (lines 135-147); the float-valued stats
are rendered with `:.2%`, the int-valued ones plainly. -/
def statsText (summary : List SummaryRow) : String :=
  "*Overall Statistics:*\n" ++
  "• Average Directional Accuracy: " ++
    fmtPct (pdMean (summary.map (fun r => r.directional_accuracy))) ++ "\n" ++
  "• Best RMSE: " ++ fmtPct (pdMin (summary.map (fun r => r.rmse))) ++ "\n" ++
  "• Models with Alerts: " ++ toString (summary.map (fun r => r.alerts)).sum ++ "\n" ++
  "• Total Models: " ++ toString summary.length ++ "\n"

/-- `format_alert_message` (lines 84-157): header block, an alert section
only when there are alerts, the top-models section over
`nlargest(3, 'directional_accuracy')`, and the statistics section. -/
def formatAlertMessage (alerts : List Alert) (summary : List SummaryRow) : List Block :=
  [Block.header "🔍 Model Performance Report"] ++
  (if alerts.isEmpty then [] else [Block.sect (alertSectionText alerts)]) ++
  [Block.sect ("*Top Performing Models:*\n" ++
    String.join ((topModels summary).map topRowText))] ++
  [Block.sect (statsText summary)]

/-- `export_metrics` of `check_model_performance.py` (lines 174-198): three
aggregate lines followed by five lines per summary row, assembled exactly
as the source's f-strings (note the source interpolates the label block
between the base name and the metric suffix). -/
def exportPerf (summary : List SummaryRow) : List String :=
  ["model_performance_directional_accuracy_avg " ++
     pyShow (pdMean (summary.map (fun r => r.directional_accuracy))),
   "model_performance_rmse_min " ++ pyShow (pdMin (summary.map (fun r => r.rmse))),
   "model_performance_alerts_total " ++ toString (summary.map (fun r => r.alerts)).sum]
  ++ summary.flatMap (fun r =>
    let base := "model_performance\x7bmodel_id=\"" ++ r.model_id ++ "\"\x7d"
    [base ++ "_directional_accuracy " ++ pyShow r.directional_accuracy,
     base ++ "_interval_accuracy " ++ pyShow r.interval_accuracy,
     base ++ "_rmse " ++ pyShow r.rmse,
     base ++ "_profit_correlation " ++ pyShow r.profit_correlation,
     base ++ "_alerts " ++ toString r.alerts])

/-! ## Supporting lemmas for the exporter claims -/

/-- Every numeric (int/float, including `nan`) dict value yields its
exposition line. -/
theorem mem_exportMetrics {results : List (String × List (String × PyVal))}
    {mid : String} {m : List (String × PyVal)} (h : (mid, m) ∈ results)
    {k : String} {f : PyFloat} (hk : (k, PyVal.fl f) ∈ m) :
    (⟨sanitizeName k, [("model_id", mid)], f⟩ : Line) ∈ exportMetrics results := by
  simp only [exportMetrics, List.mem_flatMap]
  refine ⟨(mid, m), h, ?_⟩
  simp only [List.mem_filterMap]
  exact ⟨(k, .fl f), hk, rfl⟩

/-- Every exposition line originates from a numeric dict value. -/
theorem exportMetrics_sound {results : List (String × List (String × PyVal))}
    {l : Line} (h : l ∈ exportMetrics results) :
    ∃ mid m k f, (mid, m) ∈ results ∧ (k, PyVal.fl f) ∈ m ∧
      l = ⟨sanitizeName k, [("model_id", mid)], f⟩ := by
  simp only [exportMetrics, List.mem_flatMap, List.mem_filterMap] at h
  obtain ⟨⟨mid, m⟩, hm, ⟨k, v⟩, hkv, he⟩ := h
  cases v with
  | fl f =>
    refine ⟨mid, m, k, f, hm, hkv, ?_⟩
    simpa using he.symm
  | str s => simp at he

/-- The characters of a sanitized name: each is the corresponding source
character, with only `'-'` rewritten to `'_'`. -/
theorem sanitizeName_data (k : String) :
    (sanitizeName k).data = ("model_" ++ k).data.map (fun c => if c = '-' then '_' else c) :=
  rfl

/-! ## Claim C4 — NaN handling in the exposition output

The claim states that no exposition line is written for a NaN-valued
metric.  The source's filter is `isinstance(value, (int, float))`, which a
NaN float passes, so the NaN line IS written; only non-numeric (string)
values such as `evaluated_at` are omitted. -/

/-- A concrete results dict with a NaN metric value. -/
def nanResults : List (String × List (String × PyVal)) :=
  [("btc", [("r2", .fl .nan), ("evaluated_at", .str "t")])]

/-- Counterexample to claim C4: a results dict whose `r2` value is NaN
produces an exposition line carrying the NaN value (the claim says every
line present carries a non-NaN value); the string-valued `evaluated_at`
entry is the only one omitted. -/
theorem nan_line_exported :
    exportMetrics nanResults = [⟨"model_r2", [("model_id", "btc")], .nan⟩] ∧
    (⟨"model_r2", [("model_id", "btc")], PyFloat.nan⟩ : Line).value = PyFloat.nan := by
  constructor
  · simp [nanResults, exportMetrics, sanitizeName]
  · rfl

/-- Claim C4, amended: the exporter omits a line exactly for the
non-numeric (string) dict values; every numeric value — NaN included — is
written as a line, and every line present comes from a numeric value. -/
theorem export_line_iff_numeric (results : List (String × List (String × PyVal))) :
    (∀ l ∈ exportMetrics results, ∃ mid m k f, (mid, m) ∈ results ∧
        (k, PyVal.fl f) ∈ m ∧ l = ⟨sanitizeName k, [("model_id", mid)], f⟩) ∧
    (∀ mid m, (mid, m) ∈ results → ∀ k f, (k, PyVal.fl f) ∈ m →
        (⟨sanitizeName k, [("model_id", mid)], f⟩ : Line) ∈ exportMetrics results) := by
  constructor
  · intro l hl
    exact exportMetrics_sound hl
  · intro mid m hm k f hk
    exact mem_exportMetrics hm hk

/-- Witness for `export_line_iff_numeric` at the concrete NaN input: the
NaN-valued line is a member of the exposition output. -/
theorem export_line_iff_numeric_witness :
    (⟨sanitizeName "r2", [("model_id", "btc")], PyFloat.nan⟩ : Line) ∈
      exportMetrics nanResults ∧ sanitizeName "r2" = "model_r2" :=
  ⟨(export_line_iff_numeric nanResults).2 "btc" [("r2", .fl .nan), ("evaluated_at", .str "t")]
    (by simp [nanResults]) "r2" .nan (by simp), rfl⟩

/-! ## Claim C5 — metric-name sanitization

The claim states that every character outside `[A-Za-z0-9_]` in a metric
name is replaced with `'_'`.  The source performs only
`.replace('-', '_')`: a `':'` (outside the class) survives, so the
example name renders as `model_performance:avg`, not
`model_performance_avg`.  Label values are passed through verbatim (for
this exporter). -/

/-- A concrete results dict whose metric key contains a colon. -/
def colonResults : List (String × List (String × PyVal)) :=
  [("BTC-USD", [("performance:avg", .fl (.val 1))])]

/-- Counterexample to claim C5: the metric key `performance:avg` under
model `BTC-USD` renders with name `model_performance:avg` — the colon, a
character outside `[A-Za-z0-9_]`, is not replaced — and not as the
claimed `model_performance_avg`. -/
theorem sanitize_keeps_colon :
    exportMetrics colonResults =
      [⟨"model_performance:avg", [("model_id", "BTC-USD")], .val 1⟩] ∧
    "model_performance:avg" ≠ "model_performance_avg" ∧
    ':' ∈ "model_performance:avg".data ∧ ¬(':'.isAlphanum ∨ ':' = '_') := by
  refine ⟨?_, by decide, by decide, by decide⟩
  simp [colonResults, exportMetrics, sanitizeName]

/-- Claim C5, amended: the exporter's name sanitization replaces exactly
the `'-'` characters of `model_<metric>` with `'_'` (every other
character, `':'` included, is kept), and the label value is the model id
verbatim. -/
theorem export_name_sanitization (results : List (String × List (String × PyVal)))
    (mid : String) (m : List (String × PyVal)) (h : (mid, m) ∈ results)
    (k : String) (f : PyFloat) (hk : (k, PyVal.fl f) ∈ m) :
    (⟨sanitizeName k, [("model_id", mid)], f⟩ : Line) ∈ exportMetrics results ∧
    (∀ c ∈ (sanitizeName k).data, c ≠ '-') ∧
    (∀ c ∈ (sanitizeName k).data, c = '_' ∨ c ∈ ("model_" ++ k).data) ∧
    (sanitizeName k).data.length = ("model_" ++ k).data.length := by
  refine ⟨mem_exportMetrics h hk, ?_, ?_, ?_⟩
  · intro c hc
    rw [sanitizeName_data] at hc
    obtain ⟨c0, _, rfl⟩ := List.mem_map.mp hc
    by_cases h0 : c0 = '-' <;> simp [h0]
  · intro c hc
    rw [sanitizeName_data] at hc
    obtain ⟨c0, hc0, rfl⟩ := List.mem_map.mp hc
    by_cases h0 : c0 = '-'
    · left
      simp [h0]
    · right
      rw [if_neg h0]
      exact hc0
  · rw [sanitizeName_data, List.length_map]

/-- Witness for `export_name_sanitization` at the colon-bearing input. -/
theorem export_name_sanitization_witness :
    (⟨sanitizeName "performance:avg", [("model_id", "BTC-USD")], PyFloat.val 1⟩ : Line) ∈
      exportMetrics colonResults ∧
    sanitizeName "performance:avg" = "model_performance:avg" :=
  ⟨(export_name_sanitization colonResults "BTC-USD" [("performance:avg", .fl (.val 1))]
      (by simp [colonResults]) "performance:avg" (.val 1) (by simp)).1, rfl⟩

/-! ## Claim C2 — per-rule threshold semantics -/

/-- Claim C2: for a rule whose metric is present with value `v`, the
lower-is-better rule (`rmse`) records a `high` ("too high") violation
exactly when `v > threshold`; a higher-is-better rule records a `low`
("too low") violation exactly when `v < threshold`; equality with the
threshold never produces a violation (boundary is inclusive-pass). -/
theorem threshold_rule_semantics (metric : String) (t v : ℚ) :
    (direction metric = .lowerIsBetter →
      (checkRule metric t (.val v) = some ⟨metric, .val v, t, .high⟩ ↔ t < v)) ∧
    (direction metric = .higherIsBetter →
      (checkRule metric t (.val v) = some ⟨metric, .val v, t, .low⟩ ↔ v < t)) ∧
    (∀ viol, checkRule metric t (.val v) = some viol →
      (viol.status = .high ↔ direction metric = .lowerIsBetter)) ∧
    (v = t → checkRule metric t (.val v) = none) := by
  by_cases h : metric = "rmse" <;>
    simp only [direction, checkRule, PyFloat.gtB, PyFloat.ltB, h, if_true, if_false,
      reduceIte] <;>
    refine ⟨?_, ?_, ?_, ?_⟩
  · intro _
    by_cases hv : t < v <;> simp [hv]
  · intro hdir
    exact absurd hdir (by simp)
  · intro viol hviol
    by_cases hv : t < v <;> simp [hv] at hviol ⊢
    rw [← hviol]
  · intro he
    subst he
    simp
  · intro hdir
    exact absurd hdir (by simp)
  · intro _
    by_cases hv : v < t <;> simp [hv]
  · intro viol hviol
    by_cases hv : v < t <;> simp [hv] at hviol ⊢
    rw [← hviol]
    simp
  · intro he
    subst he
    simp

/-- Witness for `threshold_rule_semantics` at the spec's own example: the
rule `(rmse, LowerIsBetter, 0.02)` fires `high` on value `0.03`, and the
boundary value `0.02` produces no violation. -/
theorem threshold_rule_witness :
    direction "rmse" = .lowerIsBetter ∧
    checkRule "rmse" (1/50) (.val (3/100)) = some ⟨"rmse", .val (3/100), 1/50, .high⟩ ∧
    checkRule "rmse" (1/50) (.val (1/50)) = none :=
  ⟨rfl,
   ((threshold_rule_semantics "rmse" (1/50) (3/100)).1 rfl).mpr (by norm_num),
   (threshold_rule_semantics "rmse" (1/50) (1/50)).2.2.2 rfl⟩

/-! ## Claim C9 — alert aggregation -/

/-- Specification-side firing test for one rule against a sample, written
with the claim's vocabulary (presence of the metric plus the directional
comparison), independently of the checker's accumulation code. -/
def firesB (m : List (String × PyFloat)) (r : String × ℚ) : Bool :=
  match lookupMetric m r.1 with
  | none => false
  | some q =>
    if direction r.1 = .lowerIsBetter then PyFloat.gtB q (.val r.2)
    else PyFloat.ltB q (.val r.2)

/-- The per-rule step produces no violation exactly when the rule does not
fire (absent metric or satisfied comparison). -/
theorem checkStep_eq_none_iff (m : List (String × PyFloat)) (r : String × ℚ) :
    checkStep m r = none ↔ firesB m r = false := by
  unfold checkStep firesB
  cases lookupMetric m r.1 with
  | none => simp
  | some q =>
    unfold checkRule direction
    by_cases h : r.1 = "rmse" <;>
      simp only [h, if_true, if_false, reduceIte, reduceCtorEq] <;>
      split <;> simp_all

/-- The fields of a produced violation: the rule's metric and threshold,
and the sample's value for that metric. -/
theorem checkStep_some (m : List (String × PyFloat)) (r : String × ℚ)
    (viol : Violation) (h : checkStep m r = some viol) :
    viol.metric = r.1 ∧ viol.threshold = r.2 ∧ lookupMetric m r.1 = some viol.value := by
  unfold checkStep at h
  cases hq : lookupMetric m r.1 with
  | none =>
    rw [hq] at h
    simp at h
  | some q =>
    rw [hq] at h
    dsimp only [] at h
    unfold checkRule at h
    by_cases hm : r.1 = "rmse"
    · rw [if_pos hm] at h
      by_cases hgt : PyFloat.gtB q (.val r.2)
      · rw [if_pos hgt] at h
        obtain rfl := Option.some.inj h
        exact ⟨rfl, rfl, rfl⟩
      · rw [if_neg hgt] at h
        simp at h
    · rw [if_neg hm] at h
      by_cases hlt : PyFloat.ltB q (.val r.2)
      · rw [if_pos hlt] at h
        obtain rfl := Option.some.inj h
        exact ⟨rfl, rfl, rfl⟩
      · rw [if_neg hlt] at h
        simp at h

/-- The violations' metrics are the fired rules' metrics, kept in rule
declaration order. -/
theorem checkModel_map_metric (rules : List (String × ℚ)) (m : List (String × PyFloat)) :
    (checkModel rules m).map Violation.metric = (rules.filter (firesB m)).map Prod.fst := by
  induction rules with
  | nil => rfl
  | cons r rest ih =>
    unfold checkModel at ih ⊢
    cases hc : checkStep m r with
    | none =>
      have hf : firesB m r = false := (checkStep_eq_none_iff m r).mp hc
      simp [List.filterMap_cons, List.filter_cons, hc, hf, ih]
    | some viol =>
      have hf : firesB m r = true := by
        by_contra hne
        have := (checkStep_eq_none_iff m r).mpr (by simpa using hne)
        simp [this] at hc
      have hm := (checkStep_some m r viol hc).1
      simp [List.filterMap_cons, List.filter_cons, hc, hf, ih, hm]

/-- Members of the violations list are produced by some rule. -/
theorem checkModel_mem (rules : List (String × ℚ)) (m : List (String × PyFloat))
    (viol : Violation) (h : viol ∈ checkModel rules m) :
    (viol.metric, viol.threshold) ∈ rules ∧ lookupMetric m viol.metric = some viol.value := by
  unfold checkModel at h
  obtain ⟨r, hr, hc⟩ := List.mem_filterMap.mp h
  obtain ⟨h1, h2, h3⟩ := checkStep_some m r viol hc
  refine ⟨?_, by rw [h1]; exact h3⟩
  have : (viol.metric, viol.threshold) = r := by
    cases r
    simp_all
  rw [this]
  exact hr

/-- Alerts present in `check_performance`'s output are sound: nonempty,
and exactly the violation list of a listed model with its timestamp. -/
theorem checkPerformance_alerts_sound (results : List (String × Sample))
    (a : Alert) (h : a ∈ (checkPerformance results).1) :
    a.alerts ≠ [] ∧ ∃ s, (a.model_id, s) ∈ results ∧
      a.alerts = checkModel thresholds s.metrics ∧ a.evaluation_time = s.evaluated_at := by
  induction results with
  | nil => simp [checkPerformance] at h
  | cons p rest ih =>
    obtain ⟨mid, s⟩ := p
    unfold checkPerformance at h
    by_cases hma : checkModel thresholds s.metrics = []
    · rw [if_pos hma] at h
      obtain ⟨hne, s1, hs1, he1, ht1⟩ := ih h
      exact ⟨hne, s1, List.mem_cons_of_mem _ hs1, he1, ht1⟩
    · rw [if_neg hma] at h
      rcases List.mem_cons.mp h with rfl | hmem
      · exact ⟨hma, s, List.mem_cons_self _ _, rfl, rfl⟩
      · obtain ⟨hne, s1, hs1, he1, ht1⟩ := ih hmem
        exact ⟨hne, s1, List.mem_cons_of_mem _ hs1, he1, ht1⟩

/-- A listed model with a nonempty violation list has an alert in the
output. -/
theorem checkPerformance_alerts_complete (results : List (String × Sample))
    (mid : String) (s : Sample) (h : (mid, s) ∈ results)
    (hne : checkModel thresholds s.metrics ≠ []) :
    ∃ a ∈ (checkPerformance results).1,
      a.model_id = mid ∧ a.alerts = checkModel thresholds s.metrics := by
  induction results with
  | nil => simp at h
  | cons p rest ih =>
    obtain ⟨mid1, s1⟩ := p
    unfold checkPerformance
    rcases List.mem_cons.mp h with heq | hmem
    · injection heq with h1 h2
      subst h1
      subst h2
      rw [if_neg hne]
      exact ⟨⟨mid, checkModel thresholds s.metrics, s.evaluated_at⟩,
        List.mem_cons_self _ _, rfl, rfl⟩
    · obtain ⟨a, ha, h1, h2⟩ := ih hmem
      by_cases hma : checkModel thresholds s1.metrics = []
      · rw [if_pos hma]
        exact ⟨a, ha, h1, h2⟩
      · rw [if_neg hma]
        exact ⟨a, List.mem_cons_of_mem _ ha, h1, h2⟩

/-- Claim C9: threshold evaluation yields no violations for a sample
exactly when no rule fires; the violation list covers every fired rule in
rule-declaration order with the sample's values; rules whose metric is
absent are skipped (they never fire); at the alert level, an alert is
present exactly for the models with a nonempty violation list. -/
theorem checkModel_alert_spec (rules : List (String × ℚ)) (m : List (String × PyFloat)) :
    (checkModel rules m = [] ↔ ∀ r ∈ rules, firesB m r = false) ∧
    ((checkModel rules m).map Violation.metric = (rules.filter (firesB m)).map Prod.fst) ∧
    (∀ viol ∈ checkModel rules m,
      (viol.metric, viol.threshold) ∈ rules ∧ lookupMetric m viol.metric = some viol.value) ∧
    (∀ results : List (String × Sample), ∀ a ∈ (checkPerformance results).1,
      a.alerts ≠ [] ∧ ∃ s, (a.model_id, s) ∈ results ∧
        a.alerts = checkModel thresholds s.metrics ∧ a.evaluation_time = s.evaluated_at) ∧
    (∀ results : List (String × Sample), ∀ mid s, (mid, s) ∈ results →
      checkModel thresholds s.metrics ≠ [] →
      ∃ a ∈ (checkPerformance results).1,
        a.model_id = mid ∧ a.alerts = checkModel thresholds s.metrics) := by
  refine ⟨?_, checkModel_map_metric rules m, ?_, ?_, ?_⟩
  · unfold checkModel
    rw [List.filterMap_eq_nil_iff]
    constructor
    · intro h r hr
      exact (checkStep_eq_none_iff m r).mp (h r hr)
    · intro h r hr
      exact (checkStep_eq_none_iff m r).mpr (h r hr)
  · intro viol hviol
    exact checkModel_mem rules m viol hviol
  · intro results a ha
    exact checkPerformance_alerts_sound results a ha
  · intro results mid s hm hne
    exact checkPerformance_alerts_complete results mid s hm hne

/-- Witness for `checkModel_alert_spec` at a concrete sample: a sample
violating only the rmse rule (value 0.03 > 0.02) yields a violation list
whose metrics are exactly `[rmse]`, and a sample whose metrics are absent
from the rule table fires nothing. -/
theorem checkModel_alert_witness :
    (checkModel thresholds [("rmse", .val (3/100)), ("directional_accuracy", .val (9/10))]).map
      Violation.metric =
      (thresholds.filter (firesB [("rmse", .val (3/100)),
        ("directional_accuracy", .val (9/10))])).map Prod.fst ∧
    (checkModel thresholds [("unknown", .val 0)] = [] ↔
      ∀ r ∈ thresholds, firesB [("unknown", .val 0)] r = false) :=
  ⟨(checkModel_alert_spec thresholds
      [("rmse", .val (3/100)), ("directional_accuracy", .val (9/10))]).2.1,
   (checkModel_alert_spec thresholds [("unknown", .val 0)]).1⟩


/-! ## Claim C10 — determinism of evaluation, formatting and export -/

/-- Claim C10: threshold evaluation, alert-message formatting and metric
exposition are pure functions of the loaded results (and the fixed rule
table): two runs over identical inputs produce identical alerts,
notification blocks and exposition lines.  The only timestamp in any of
these outputs is the `evaluated_at` field carried inside the input samples
themselves; no output depends on ambient state (clock, webhook
configuration, environment). -/
theorem pipeline_deterministic (r1 r2 : List (String × Sample)) (h : r1 = r2) :
    checkPerformance r1 = checkPerformance r2 ∧
    formatAlertMessage (checkPerformance r1).1 (checkPerformance r1).2 =
      formatAlertMessage (checkPerformance r2).1 (checkPerformance r2).2 ∧
    exportPerf (checkPerformance r1).2 = exportPerf (checkPerformance r2).2 := by
  subst h
  exact ⟨rfl, rfl, rfl⟩

/-- Witness for `pipeline_deterministic`: two runs over one concrete
results list agree on alerts, blocks and exposition lines. -/
theorem pipeline_deterministic_witness :
    checkPerformance [("m", ⟨[("rmse", .val (3/100))], some "t"⟩)] =
      checkPerformance [("m", ⟨[("rmse", .val (3/100))], some "t"⟩)] ∧
    exportPerf (checkPerformance [("m", ⟨[("rmse", .val (3/100))], some "t"⟩)]).2 =
      exportPerf (checkPerformance [("m", ⟨[("rmse", .val (3/100))], some "t"⟩)]).2 :=
  ⟨(pipeline_deterministic [("m", ⟨[("rmse", .val (3/100))], some "t"⟩)]
      [("m", ⟨[("rmse", .val (3/100))], some "t"⟩)] rfl).1,
   (pipeline_deterministic [("m", ⟨[("rmse", .val (3/100))], some "t"⟩)]
      [("m", ⟨[("rmse", .val (3/100))], some "t"⟩)] rfl).2.2⟩


/-! ## Claim C3 — anomaly detection -/

/-- The deviation-square sum is nonnegative. -/
theorem devSqSum_nonneg (l : List ℚ) : 0 ≤ devSqSum l := by
  apply List.sum_nonneg
  intro x hx
  obtain ⟨u, _, rfl⟩ := List.mem_map.mp hx
  positivity

/-- One squared deviation is at most the deviation-square sum. -/
theorem sq_le_devSqSum (l : List ℚ) (v : ℚ) (h : v ∈ l) :
    (v - meanQ l) ^ 2 ≤ devSqSum l := by
  apply List.single_le_sum
  · intro x hx
    obtain ⟨u, _, rfl⟩ := List.mem_map.mp hx
    positivity
  · exact List.mem_map_of_mem _ h

/-- Counterexample to claim C3: on the series `[1,1,1,1,10]` the detector
reports no anomaly at all — in particular the value `10` is NOT flagged
(its z-score is `7.2 / sqrt(16.2) ≈ 1.79` with the sample standard
deviation the source uses, and exactly `2.0`, not `> 2`, even with the
population standard deviation the claim prescribes). -/
theorem anomaly_example_not_flagged :
    analyzeAnomalies [1, 1, 1, 1, 10] = none ∧
    anomFlag [1, 1, 1, 1, 10] 10 = false := by
  constructor
  · norm_num [analyzeAnomalies, anomFlag, devSqSum, meanQ, List.filter]
  · norm_num [anomFlag, devSqSum, meanQ]

/-- Claim C3, amended: the detector flags exactly the points with
`|z| > 2` where `z = (value - mean) / stddev` and `stddev` is the SAMPLE
standard deviation (`pandas .std()`, `ddof = 1`, i.e.
`sqrt(S / (n - 1))`); on a constant series it reports zero anomalies
without a divide-by-zero fault; on `[1,1,1,1,10]` no point is flagged. -/
theorem anomaly_zscore_sample_std (costs : List ℚ) (h2 : 2 ≤ costs.length) :
    (∀ v ∈ costs, (anomFlag costs v = true ↔
      2 < |(v : ℝ) - (meanQ costs : ℝ)| /
        Real.sqrt ((devSqSum costs : ℝ) / ((costs.length : ℝ) - 1)))) ∧
    ((∀ v ∈ costs, v = meanQ costs) → analyzeAnomalies costs = none) := by
  have hn1 : (0 : ℝ) < (costs.length : ℝ) - 1 := by
    have h2R : (2 : ℝ) ≤ (costs.length : ℝ) := by exact_mod_cast h2
    linarith
  constructor
  · intro v hv
    rw [anomFlag, decide_eq_true_eq]
    by_cases hS : devSqSum costs = 0
    · have hterm : (v - meanQ costs) ^ 2 = 0 := by
        have hle := sq_le_devSqSum costs v hv
        rw [hS] at hle
        have hge : (0 : ℚ) ≤ (v - meanQ costs) ^ 2 := by positivity
        linarith
      apply iff_of_false
      · rw [hS, hterm]
        norm_num
      · rw [hS]
        norm_num
    · have hSpos : 0 < devSqSum costs := lt_of_le_of_ne (devSqSum_nonneg costs) (Ne.symm hS)
      have hSposR : (0 : ℝ) < (devSqSum costs : ℝ) := by exact_mod_cast hSpos
      have hdivpos : (0 : ℝ) < (devSqSum costs : ℝ) / ((costs.length : ℝ) - 1) :=
        div_pos hSposR hn1
      have hsig : 0 < Real.sqrt ((devSqSum costs : ℝ) / ((costs.length : ℝ) - 1)) :=
        Real.sqrt_pos.mpr hdivpos
      have hsig2 : Real.sqrt ((devSqSum costs : ℝ) / ((costs.length : ℝ) - 1)) ^ 2 =
          (devSqSum costs : ℝ) / ((costs.length : ℝ) - 1) := Real.sq_sqrt hdivpos.le
      have iff1 : (2 < |(v : ℝ) - (meanQ costs : ℝ)| /
            Real.sqrt ((devSqSum costs : ℝ) / ((costs.length : ℝ) - 1))) ↔
          2 * Real.sqrt ((devSqSum costs : ℝ) / ((costs.length : ℝ) - 1)) <
            |(v : ℝ) - (meanQ costs : ℝ)| := lt_div_iff₀ hsig
      have iff2 : (2 * Real.sqrt ((devSqSum costs : ℝ) / ((costs.length : ℝ) - 1)) <
            |(v : ℝ) - (meanQ costs : ℝ)|) ↔
          (2 * Real.sqrt ((devSqSum costs : ℝ) / ((costs.length : ℝ) - 1))) ^ 2 <
            |(v : ℝ) - (meanQ costs : ℝ)| ^ 2 :=
        (pow_lt_pow_iff_left₀ (by positivity) (abs_nonneg _) (by norm_num)).symm
      have heq3 : (2 * Real.sqrt ((devSqSum costs : ℝ) / ((costs.length : ℝ) - 1))) ^ 2 =
          4 * ((devSqSum costs : ℝ) / ((costs.length : ℝ) - 1)) := by
        rw [mul_pow, hsig2]
        norm_num
      have iff4 : (4 * ((devSqSum costs : ℝ) / ((costs.length : ℝ) - 1)) <
            ((v : ℝ) - (meanQ costs : ℝ)) ^ 2) ↔
          (4 * (devSqSum costs : ℝ) <
            ((v : ℝ) - (meanQ costs : ℝ)) ^ 2 * ((costs.length : ℝ) - 1)) := by
        rw [mul_div_assoc']
        exact div_lt_iff₀ hn1
      have castq : (4 * devSqSum costs < (v - meanQ costs) ^ 2 * ((costs.length : ℚ) - 1)) ↔
          (4 * (devSqSum costs : ℝ) <
            ((v : ℝ) - (meanQ costs : ℝ)) ^ 2 * ((costs.length : ℝ) - 1)) := by
        constructor
        · intro h
          exact_mod_cast h
        · intro h
          exact_mod_cast h
      rw [castq, iff1, iff2, heq3, sq_abs, iff4]
  · intro hconst
    have hS : devSqSum costs = 0 := by
      apply List.sum_eq_zero
      intro x hx
      obtain ⟨u, hu, rfl⟩ := List.mem_map.mp hx
      rw [hconst u hu]
      ring
    have hfil : costs.filter (fun v => anomFlag costs v) = [] := by
      rw [List.filter_eq_nil_iff]
      intro v hv
      rw [anomFlag]
      simp only [decide_eq_true_eq, not_lt]
      have h0 : v - meanQ costs = 0 := by
        rw [hconst v hv]
        ring
      rw [hS, h0]
      norm_num
    rw [analyzeAnomalies, hfil]
    rfl

/-- Witness for `anomaly_zscore_sample_std` at `[1,1,1,1,10]`: the
sample-std z-score of the value `10` does not exceed 2, derived by
applying the theorem together with the evaluated flag. -/
theorem anomaly_zscore_sample_std_witness :
    2 ≤ ([1, 1, 1, 1, 10] : List ℚ).length ∧
    ¬(2 < |((10 : ℚ) : ℝ) - ((meanQ [1, 1, 1, 1, 10] : ℚ) : ℝ)| /
        Real.sqrt ((devSqSum [1, 1, 1, 1, 10] : ℝ) /
          ((([1, 1, 1, 1, 10] : List ℚ).length : ℝ) - 1))) := by
  refine ⟨by norm_num, ?_⟩
  intro hlt
  have h := (anomaly_zscore_sample_std [1, 1, 1, 1, 10] (by norm_num)).1 10 (by norm_num)
  have htrue : anomFlag [1, 1, 1, 1, 10] 10 = true := h.mpr hlt
  have hfalse : anomFlag [1, 1, 1, 1, 10] 10 = false := by
    norm_num [anomFlag, devSqSum, meanQ]
  rw [hfalse] at htrue
  exact Bool.false_ne_true htrue


/-! ## Claim C8 — metrics under perfect prediction -/

/-- `zipWith3` over three copies of one list is a pointwise map. -/
theorem zipWith3_same {α β : Type} (f : α → α → α → β) (l : List α) :
    List.zipWith3 f l l l = l.map fun a => f a a a := by
  induction l with
  | nil => rfl
  | cons a l ih => simp [List.zipWith3, ih]

/-- Σ (y - y)² = 0. -/
theorem sqErrSum_self (y : List ℚ) : sqErrSum y y = 0 := by
  rw [sqErrSum, List.zipWith_same]
  apply List.sum_eq_zero
  intro x hx
  obtain ⟨a, _, rfl⟩ := List.mem_map.mp hx
  ring

/-- Σ |y - y| = 0. -/
theorem absErrSum_self (y : List ℚ) : absErrSum y y = 0 := by
  rw [absErrSum, List.zipWith_same]
  apply List.sum_eq_zero
  intro x hx
  obtain ⟨a, _, rfl⟩ := List.mem_map.mp hx
  simp

/-- The mean of an all-`true` boolean series of positive length is 1. -/
theorem npMeanB_all_true (k : ℕ) (hk : k ≠ 0) :
    npMeanB (List.replicate k true) = .val 1 := by
  rw [npMeanB]
  have hkq : (k : ℚ) ≠ 0 := Nat.cast_ne_zero.mpr hk
  simp [PyFloat.qdiv, hkq, div_self]

/-- `np.diff` has one element fewer than its input. -/
theorem diffs_length (l : List ℚ) : (diffs l).length = l.length - 1 := by
  simp [diffs, List.length_tail]

/-- `mse(y, y) = 0` on a nonempty series. -/
theorem mseV_self (y : List ℚ) (hn : y.length ≠ 0) : mseV y y = .val 0 := by
  have hq : (y.length : ℚ) ≠ 0 := Nat.cast_ne_zero.mpr hn
  rw [mseV, sqErrSum_self, PyFloat.qdiv, if_neg hq]
  norm_num

/-- `mae(y, y) = 0` on a nonempty series. -/
theorem maeV_self (y : List ℚ) (hn : y.length ≠ 0) : maeV y y = .val 0 := by
  have hq : (y.length : ℚ) ≠ 0 := Nat.cast_ne_zero.mpr hn
  rw [maeV, absErrSum_self, PyFloat.qdiv, if_neg hq]
  norm_num

/-- `r2(y, y) = 1` when the true series is not constant. -/
theorem r2V_self (y : List ℚ) (hvar : totSqSum y ≠ 0) : r2V y y = .val 1 := by
  rw [r2V, sqErrSum_self, PyFloat.qdiv, if_neg hvar]
  norm_num [PyFloat.oneSub]

/-- `directional_accuracy(y, y) = 1` for series of length ≥ 2. -/
theorem dirAccV_self (y : List ℚ) (h2 : 2 ≤ y.length) : dirAccV y y = .val 1 := by
  rw [dirAccV, List.zipWith_same]
  have h1 : ((diffs y).map fun d => decide (0 < d)).map (fun a => a == a) =
      List.replicate (diffs y).length true := by
    rw [List.map_map]
    have hfun : ((fun (a : Bool) => a == a) ∘ fun (d : ℚ) => decide (0 < d)) =
        fun _ => true := by
      funext d
      simp
    rw [hfun]
    simp [List.map_const']
  rw [h1, npMeanB_all_true]
  rw [diffs_length]
  omega

/-- `interval_accuracy(y, y, y) = 1` on a nonempty series. -/
theorem intervalAccV_self (y : List ℚ) (hn : y.length ≠ 0) :
    intervalAccV y y y = .val 1 := by
  rw [intervalAccV, zipWith3_same]
  have h1 : (y.map fun a => decide (a ≤ a) && decide (a ≤ a)) =
      List.replicate y.length true := by
    have hfun : (fun (a : ℚ) => decide (a ≤ a) && decide (a ≤ a)) = fun _ => true := by
      funext a
      simp
    rw [hfun]
    simp [List.map_const']
  rw [h1, npMeanB_all_true _ hn]

/-- Counterexample to claim C8: on the constant series `y = y_pred = [5,5]`
(length 2, prediction equal to truth pointwise, bounds equal to the true
value) the computed `r2 = 1 - 0/0` is NaN, not 1. -/
theorem constant_series_r2_nan :
    ([5, 5] : List ℚ).length = 2 ∧ r2V [5, 5] [5, 5] = PyFloat.nan ∧
    PyFloat.nan ≠ PyFloat.val 1 := by
  refine ⟨rfl, ?_, by simp⟩
  norm_num [r2V, PyFloat.oneSub, PyFloat.qdiv, sqErrSum, totSqSum, meanQ]

/-- Claim C8, amended: for every series of length ≥ 2 with predictions
equal to the true values pointwise, `mse = 0`, `rmse = sqrt(mse) = 0`,
`mae = 0`, `directional_accuracy = 1`, `interval_accuracy = 1` when both
bounds equal the true value, and `r2 = 1` PROVIDED the true series is not
constant (`Σ(y - ȳ)² ≠ 0`; on a constant series `r2` is NaN). -/
theorem perfect_prediction_metrics (y : List ℚ) (h2 : 2 ≤ y.length)
    (hvar : totSqSum y ≠ 0) :
    mseV y y = .val 0 ∧ Real.sqrt (((mseV y y).toQ : ℝ)) = 0 ∧ maeV y y = .val 0 ∧
    r2V y y = .val 1 ∧ dirAccV y y = .val 1 ∧ intervalAccV y y y = .val 1 := by
  have hn : y.length ≠ 0 := by omega
  refine ⟨mseV_self y hn, ?_, maeV_self y hn, r2V_self y hvar,
    dirAccV_self y h2, intervalAccV_self y hn⟩
  rw [mseV_self y hn]
  simp [PyFloat.toQ]

/-- Witness for `perfect_prediction_metrics` at the series `[1, 2]`. -/
theorem perfect_prediction_witness :
    2 ≤ ([1, 2] : List ℚ).length ∧ totSqSum [1, 2] ≠ 0 ∧
    (mseV [1, 2] [1, 2] = .val 0 ∧ Real.sqrt (((mseV [1, 2] [1, 2]).toQ : ℝ)) = 0 ∧
     maeV [1, 2] [1, 2] = .val 0 ∧ r2V [1, 2] [1, 2] = .val 1 ∧
     dirAccV [1, 2] [1, 2] = .val 1 ∧ intervalAccV [1, 2] [1, 2] [1, 2] = .val 1) :=
  ⟨by norm_num, by norm_num [totSqSum, meanQ],
   perfect_prediction_metrics [1, 2] (by norm_num) (by norm_num [totSqSum, meanQ])⟩


/-! ## Claims C1 and C7 — error budget and partial failures -/

/-- A comprehension over a predictions list containing a `None` raises. -/
theorem extractAll_error {α : Type} (f : Pred → α) (oc : List (Option Pred))
    (h : none ∈ oc) :
    extractAll f oc = .error "TypeError: 'NoneType' object is not subscriptable" := by
  induction oc with
  | nil => simp at h
  | cons o rest ih =>
    cases o with
    | none => rfl
    | some p =>
      have hr : none ∈ rest := by simpa using h
      rw [extractAll, ih hr]
      rfl

/-- Every model id in a successful run's results comes from the input
model list. -/
theorem runAll_keys (yTrue : List ℚ) (models : List (String × List (Option Pred)))
    (l : List (String × Metrics)) (h : runAll yTrue models = .ok l) :
    ∀ p ∈ l, p.1 ∈ models.map Prod.fst := by
  induction models generalizing l with
  | nil =>
    rw [runAll] at h
    obtain rfl := (Except.ok.inj h).symm
    simp
  | cons pm rest ih =>
    obtain ⟨mid1, oc1⟩ := pm
    rw [runAll] at h
    cases he : evaluateModel yTrue oc1 with
    | error e =>
      rw [he] at h
      simp at h
    | ok mo =>
      rw [he] at h
      cases mo with
      | none =>
        intro q hq
        exact List.mem_cons_of_mem _ (ih l h q hq)
      | some m =>
        cases hr : runAll yTrue rest with
        | error e =>
          rw [hr] at h
          simp [Except.map] at h
        | ok l0 =>
          rw [hr] at h
          simp only [Except.map] at h
          obtain rfl := (Except.ok.inj h).symm
          intro q hq
          rcases List.mem_cons.mp hq with rfl | hq0
          · simp
          · exact List.mem_cons_of_mem _ (ih l0 hr q hq0)

/-- Claim C1: an entity whose failed-call count exceeds 10% of the dataset
rows is abandoned: the run is identical to the run without that entity (no
MetricSample is produced for it, partial results are discarded, and the
other entities are completely unaffected — including runs where another
entity raises); when its id does not collide with another entity's, it is
absent from any successful run's results. -/
theorem abandoned_entity_isolated (yTrue : List ℚ)
    (pre post : List (String × List (Option Pred))) (mid : String)
    (oc : List (Option Pred))
    (h : (oc.length : ℚ) * (1/10) < (countFailures oc : ℚ)) :
    runAll yTrue (pre ++ (mid, oc) :: post) = runAll yTrue (pre ++ post) ∧
    (mid ∉ (pre ++ post).map Prod.fst →
      ∀ l, runAll yTrue (pre ++ (mid, oc) :: post) = .ok l → mid ∉ l.map Prod.fst) := by
  have heval : evaluateModel yTrue oc = .ok none := by
    rw [evaluateModel, getPredictions, if_pos h]
  have hmain : runAll yTrue (pre ++ (mid, oc) :: post) = runAll yTrue (pre ++ post) := by
    induction pre with
    | nil =>
      simp only [List.nil_append]
      rw [runAll, heval]
    | cons pm rest ih =>
      obtain ⟨mid1, oc1⟩ := pm
      simp only [List.cons_append]
      rw [runAll, runAll]
      cases evaluateModel yTrue oc1 with
      | error e => rfl
      | ok mo =>
        cases mo with
        | none => exact ih
        | some m => rw [ih]
  refine ⟨hmain, ?_⟩
  intro hfresh l hl hmem
  rw [hmain] at hl
  obtain ⟨q, hq, hq1⟩ := List.mem_map.mp hmem
  exact hfresh (hq1 ▸ runAll_keys yTrue _ l hl q hq)

/-- A failing and a clean per-row outcome list for the witnesses: 1 failed
row out of 2 (50% > 10%), and two clean rows. -/
def badOutcomes : List (Option Pred) := [some ⟨10, 5, 1/2⟩, none]

/-- Two successful per-row outcomes. -/
def goodOutcomes : List (Option Pred) := [some ⟨1, 1, 1⟩, some ⟨2, 2, 1⟩]

/-- Witness for `abandoned_entity_isolated`: with one failed row out of
two (50% > the 10% ceiling) the `bad` entity is dropped and the run equals
the run over the remaining entity alone. -/
theorem abandoned_entity_witness :
    ((badOutcomes.length : ℚ) * (1/10) < (countFailures badOutcomes : ℚ)) ∧
    runAll [1, 2] [("bad", badOutcomes), ("good", goodOutcomes)] =
      runAll [1, 2] [("good", goodOutcomes)] := by
  have h : (badOutcomes.length : ℚ) * (1/10) < (countFailures badOutcomes : ℚ) := by
    norm_num [badOutcomes, countFailures, List.count_cons, List.count_nil]
  exact ⟨h, (abandoned_entity_isolated [1, 2] [] [("good", goodOutcomes)] "bad"
    badOutcomes h).1⟩

/-- Claim C7: when at least one per-row call fails but the failure count
stays within the 10% budget, `get_predictions` returns the predictions
list with `None` placeholders at the failed positions, and the metric
computation — which subscripts every entry — raises a `TypeError` instead
of producing a MetricSample from the successful rows. -/
theorem partial_failure_raises (yTrue : List ℚ) (oc : List (Option Pred))
    (h1 : none ∈ oc)
    (h2 : (countFailures oc : ℚ) ≤ (oc.length : ℚ) * (1/10)) :
    getPredictions oc = some oc ∧
    evaluateModel yTrue oc = .error "TypeError: 'NoneType' object is not subscriptable" := by
  have hg : getPredictions oc = some oc := by
    rw [getPredictions, if_neg (not_lt.mpr h2)]
  refine ⟨hg, ?_⟩
  rw [evaluateModel, hg]
  dsimp only []
  rw [extractAll_error Pred.predicted_high oc h1]
  rfl

/-- Ten per-row outcomes with exactly one failure (10%, inside the
budget). -/
def tenOutcomes : List (Option Pred) := List.replicate 9 (some ⟨10, 5, 1/2⟩) ++ [none]

/-- Witness for `partial_failure_raises` at ten rows with one failure. -/
theorem partial_failure_witness :
    none ∈ tenOutcomes ∧
    (countFailures tenOutcomes : ℚ) ≤ (tenOutcomes.length : ℚ) * (1/10) ∧
    evaluateModel [1, 2, 3, 4, 5, 6, 7, 8, 9, 10] tenOutcomes =
      .error "TypeError: 'NoneType' object is not subscriptable" := by
  have h1 : none ∈ tenOutcomes := by
    simp [tenOutcomes]
  have h2 : (countFailures tenOutcomes : ℚ) ≤ (tenOutcomes.length : ℚ) * (1/10) := by
    norm_num [tenOutcomes, countFailures, List.count_append, List.count_cons,
      List.count_nil, List.count_replicate]
  exact ⟨h1, h2,
    (partial_failure_raises [1, 2, 3, 4, 5, 6, 7, 8, 9, 10] tenOutcomes h1 h2).2⟩


/-! ## Claim C6 — top-N ranking -/

/-- All ranking keys of a summary are plain rationals (no NaN has entered
the `directional_accuracy` column). -/
def allVal (rows : List SummaryRow) : Prop := ∀ r ∈ rows, ∃ q, rowKey r = .val q

/-- The rational value of a row's ranking key (meaningful on `val` keys). -/
def keyQ (r : SummaryRow) : ℚ := (rowKey r).toQ

/-- `gtB` on plain rationals is the strict order. -/
theorem gtB_val_iff (a b : ℚ) : PyFloat.gtB (.val a) (.val b) = true ↔ b < a := by
  simp [PyFloat.gtB]

/-- Insertion adds exactly the new row. -/
theorem mem_insertRow (x a : SummaryRow) (l : List SummaryRow) :
    a ∈ insertRow x l ↔ a = x ∨ a ∈ l := by
  induction l with
  | nil => simp [insertRow]
  | cons y ys ih =>
    rw [insertRow]
    by_cases hgt : PyFloat.gtB (rowKey x) (rowKey y)
    · rw [if_pos hgt]
      simp [List.mem_cons]
    · rw [if_neg hgt]
      simp [List.mem_cons, ih]
      tauto

/-- Inserting into a descending-sorted list keeps it descending-sorted
(when every key is a plain rational). -/
theorem insertRow_pairwise (x : SummaryRow) (l : List SummaryRow)
    (hx : ∃ qx, rowKey x = .val qx) (hl : ∀ r ∈ l, ∃ q, rowKey r = .val q)
    (hp : l.Pairwise (fun a b => keyQ b ≤ keyQ a)) :
    (insertRow x l).Pairwise (fun a b => keyQ b ≤ keyQ a) := by
  induction l with
  | nil => simp [insertRow]
  | cons y ys ih =>
    obtain ⟨qx, hqx⟩ := hx
    obtain ⟨qy, hqy⟩ := hl y (List.mem_cons_self y ys)
    have hkx : keyQ x = qx := by rw [keyQ, hqx]; rfl
    have hky : keyQ y = qy := by rw [keyQ, hqy]; rfl
    rw [List.pairwise_cons] at hp
    obtain ⟨hy, hys⟩ := hp
    rw [insertRow]
    by_cases hgt : PyFloat.gtB (rowKey x) (rowKey y)
    · rw [if_pos hgt]
      rw [hqx, hqy] at hgt
      have hxy : keyQ y < keyQ x := by
        rw [hkx, hky]
        exact (gtB_val_iff qx qy).mp hgt
      rw [List.pairwise_cons]
      refine ⟨?_, List.pairwise_cons.mpr ⟨hy, hys⟩⟩
      intro b hb
      rcases List.mem_cons.mp hb with rfl | hb0
      · exact le_of_lt hxy
      · exact le_trans (hy b hb0) (le_of_lt hxy)
    · rw [if_neg hgt]
      rw [hqx, hqy] at hgt
      have hyx : keyQ x ≤ keyQ y := by
        rw [hkx, hky]
        by_contra hc
        exact hgt ((gtB_val_iff qx qy).mpr (lt_of_not_le hc))
      rw [List.pairwise_cons]
      refine ⟨?_, ih (fun r hr => hl r (List.mem_cons_of_mem _ hr)) hys⟩
      intro b hb
      rcases (mem_insertRow x b ys).mp hb with rfl | hb0
      · exact hyx
      · exact hy b hb0

/-- Stability: inserting a row with key `k` into a descending-sorted
all-rational list places it after every existing row with key `k`. -/
theorem insertRow_filter (x : SummaryRow) (l : List SummaryRow) (k : ℚ)
    (hx : ∃ qx, rowKey x = .val qx) (hl : ∀ r ∈ l, ∃ q, rowKey r = .val q)
    (hp : l.Pairwise (fun a b => keyQ b ≤ keyQ a)) :
    (insertRow x l).filter (fun r => decide (rowKey r = PyFloat.val k)) =
      if rowKey x = PyFloat.val k
      then l.filter (fun r => decide (rowKey r = PyFloat.val k)) ++ [x]
      else l.filter (fun r => decide (rowKey r = PyFloat.val k)) := by
  induction l with
  | nil =>
    rw [insertRow]
    by_cases hk : rowKey x = PyFloat.val k <;> simp [hk]
  | cons y ys ih =>
    obtain ⟨qx, hqx⟩ := hx
    obtain ⟨qy, hqy⟩ := hl y (List.mem_cons_self y ys)
    have hkx : keyQ x = qx := by rw [keyQ, hqx]; rfl
    have hky : keyQ y = qy := by rw [keyQ, hqy]; rfl
    rw [List.pairwise_cons] at hp
    obtain ⟨hy, hys⟩ := hp
    rw [insertRow]
    by_cases hgt : PyFloat.gtB (rowKey x) (rowKey y)
    · rw [if_pos hgt]
      have hqylt : qy < qx := by
        rw [hqx, hqy] at hgt
        exact (gtB_val_iff qx qy).mp hgt
      by_cases hk : rowKey x = PyFloat.val k
      · rw [if_pos hk]
        have hqxk : qx = k := by
          rw [hqx] at hk
          exact PyFloat.val.inj hk
        have hnone : (y :: ys).filter (fun r => decide (rowKey r = PyFloat.val k)) = [] := by
          rw [List.filter_eq_nil_iff]
          intro b hb
          obtain ⟨qb, hqb⟩ := hl b hb
          have hble : keyQ b ≤ keyQ y := by
            rcases List.mem_cons.mp hb with rfl | hb0
            · exact le_refl _
            · exact hy b hb0
          have hkb : keyQ b = qb := by rw [keyQ, hqb]; rfl
          rw [hqb]
          simp only [decide_eq_true_eq]
          intro hbk
          have hqbk : qb = k := PyFloat.val.inj hbk
          rw [hkb, hky] at hble
          -- qb ≤ qy < qx = k yet qb = k: contradiction
          rw [hqbk, ← hqxk] at hble
          linarith
        rw [List.filter_cons, if_pos (by simp [hk]), hnone]
        rfl
      · rw [if_neg hk]
        rw [List.filter_cons, if_neg (by simp [hk])]
    · rw [if_neg hgt]
      rw [List.filter_cons]
      rw [ih (fun r hr => hl r (List.mem_cons_of_mem _ hr)) hys]
      by_cases hk : rowKey x = PyFloat.val k
      · rw [if_pos hk, if_pos hk, List.filter_cons]
        by_cases hyk : decide (rowKey y = PyFloat.val k) = true
        · simp only [hyk, if_true, reduceIte, List.cons_append]
        · simp only [hyk, if_false, Bool.false_eq_true, reduceIte]
      · rw [if_neg hk, if_neg hk, List.filter_cons]


/-- The foldl invariant of the stable insertion sort: sortedness plus the
per-key filter characterization (stability). -/
theorem sortRows_go (rows : List SummaryRow) :
    ∀ acc : List SummaryRow, (∀ r ∈ rows, ∃ q, rowKey r = .val q) →
      (∀ r ∈ acc, ∃ q, rowKey r = .val q) →
      acc.Pairwise (fun a b => keyQ b ≤ keyQ a) →
      (∀ r ∈ rows.foldl (fun a x => insertRow x a) acc, ∃ q, rowKey r = .val q) ∧
      (rows.foldl (fun a x => insertRow x a) acc).Pairwise (fun a b => keyQ b ≤ keyQ a) ∧
      (∀ k : ℚ, (rows.foldl (fun a x => insertRow x a) acc).filter
          (fun r => decide (rowKey r = PyFloat.val k)) =
        acc.filter (fun r => decide (rowKey r = PyFloat.val k)) ++
          rows.filter (fun r => decide (rowKey r = PyFloat.val k))) := by
  induction rows with
  | nil =>
    intro acc _ hacc hp
    exact ⟨hacc, hp, fun k => by simp⟩
  | cons x rest ih =>
    intro acc hrows hacc hp
    have hx : ∃ q, rowKey x = .val q := hrows x (List.mem_cons_self x rest)
    have hrest : ∀ r ∈ rest, ∃ q, rowKey r = .val q :=
      fun r hr => hrows r (List.mem_cons_of_mem _ hr)
    have hacc1 : ∀ r ∈ insertRow x acc, ∃ q, rowKey r = .val q := by
      intro r hr
      rcases (mem_insertRow x r acc).mp hr with rfl | hr0
      · exact hx
      · exact hacc r hr0
    have hp1 := insertRow_pairwise x acc hx hacc hp
    obtain ⟨ha, hb, hc⟩ := ih (insertRow x acc) hrest hacc1 hp1
    refine ⟨ha, hb, fun k => ?_⟩
    rw [List.foldl_cons, hc k, insertRow_filter x acc k hx hacc hp, List.filter_cons]
    by_cases hk : rowKey x = PyFloat.val k
    · rw [if_pos hk, if_pos (by simp [hk])]
      simp
    · rw [if_neg hk, if_neg (by simp [hk])]

/-- The sort is descending by the ranking key and stable: rows with any
given key keep their input order. -/
theorem sortRows_spec (rows : List SummaryRow) (h : allVal rows) :
    (sortRows rows).Pairwise (fun a b => keyQ b ≤ keyQ a) ∧
    ∀ k : ℚ, (sortRows rows).filter (fun r => decide (rowKey r = PyFloat.val k)) =
      rows.filter (fun r => decide (rowKey r = PyFloat.val k)) := by
  obtain ⟨_, hb, hc⟩ := sortRows_go rows [] h (by simp) (by simp)
  refine ⟨hb, fun k => ?_⟩
  have := hc k
  simpa [sortRows] using this

/-- The spec's example rows: entities A and B tied at 0.91, C at 0.85. -/
def rowA : SummaryRow := ⟨"A", .val (91/100), .val 0, .val 0, .val 0, 0⟩

/-- Entity B, tied with A on the ranking metric. -/
def rowB : SummaryRow := ⟨"B", .val (91/100), .val 0, .val 0, .val 0, 0⟩

/-- Entity C, below the tie. -/
def rowC : SummaryRow := ⟨"C", .val (85/100), .val 0, .val 0, .val 0, 0⟩

/-- Counterexample to claim C6: with the summary built in the order
`[B, A, C]` (models are summarized in results order, not by id), the
top-2 of the ranked section is `[B, A]` — the pair B, A has equal ranking
values and the lexicographically smaller id "A" does NOT come first, so
ties are broken by input order, not by ascending entity id. -/
theorem topModels_tie_input_order :
    ((topModels [rowB, rowA, rowC]).take 2).map SummaryRow.model_id = ["B", "A"] ∧
    rowB.directional_accuracy = rowA.directional_accuracy ∧
    rowA.model_id < rowB.model_id ∧ (["B", "A"] : List String) ≠ ["A", "B"] := by
  refine ⟨?_, rfl, ?_, by decide⟩
  · norm_num [topModels, sortRows, insertRow, rowKey, rowA, rowB, rowC, PyFloat.gtB]
  · simp only [rowA, rowB]
    norm_num
    decide

/-- Claim C6, amended: the top-N section ranks entities by the
`directional_accuracy` column in descending order, and entities with equal
ranking values appear in summary (input) order — pandas `nlargest`
`keep='first'` — NOT by ascending entity id; for the summary built in
order A(0.91), B(0.91), C(0.85) the top-2 is `[A, B]`. -/
theorem topModels_ranking (rows : List SummaryRow) (h : allVal rows) :
    (topModels rows).Pairwise (fun a b => keyQ b ≤ keyQ a) ∧
    (∀ k : ℚ, (sortRows rows).filter (fun r => decide (rowKey r = PyFloat.val k)) =
      rows.filter (fun r => decide (rowKey r = PyFloat.val k))) ∧
    ((topModels [rowA, rowB, rowC]).take 2).map SummaryRow.model_id = ["A", "B"] := by
  obtain ⟨hp, hf⟩ := sortRows_spec rows h
  refine ⟨List.Pairwise.sublist (List.take_sublist 3 _) hp, hf, ?_⟩
  norm_num [topModels, sortRows, insertRow, rowKey, rowA, rowB, rowC, PyFloat.gtB]

/-- Witness for `topModels_ranking` at the A, B, C example summary. -/
theorem topModels_ranking_witness :
    (topModels [rowA, rowB, rowC]).Pairwise (fun a b => keyQ b ≤ keyQ a) ∧
    ((topModels [rowA, rowB, rowC]).take 2).map SummaryRow.model_id = ["A", "B"] := by
  have hall : allVal [rowA, rowB, rowC] := by
    intro r hr
    rcases List.mem_cons.mp hr with rfl | hr
    · exact ⟨91/100, rfl⟩
    rcases List.mem_cons.mp hr with rfl | hr
    · exact ⟨91/100, rfl⟩
    rcases List.mem_cons.mp hr with rfl | hr
    · exact ⟨85/100, rfl⟩
    · simp at hr
  exact ⟨(topModels_ranking [rowA, rowB, rowC] hall).1,
         (topModels_ranking [rowA, rowB, rowC] hall).2.2⟩

end WolfAI
